import Mathlib

/-!
Shallow embedding of the cubesat-db replicated document store.

The repository holds several near-duplicate historical revisions of one
class, CubeSatDB:
- src/unnamed/part_001 : the final revision (store-first writes, bare-doc
  log payloads, join replays the foreign log with per-entry error
  swallowing, Promise.all over array puts, a cached multihash getter);
- src/index.js, first document (revision A) : op-tagged log payloads;
- src/index.js, second document (revision B) : join replays the merged
  local log and rethrows replay errors;
- src/unnamed/part_000 : the earliest revision (log-append before store
  write in put and del, fire-and-forget array puts).

Asynchronous effects are sequentialized; machine state is explicit.
-/

/-- Domain errors: the CubeError subclass of the source together with the
errors the PouchDB collaborator raises, as one taxonomy. -/
inductive CubeError where
  | invalidDocument (msg : String)
  | missingId
  | conflict
  | notFound
  | missingRev
  | noHashYet
deriving DecidableEq, Repr

/-- A document: the reserved PouchDB fields plus opaque remaining content,
modelled as the string field body. -/
structure Doc where
  _id : Option String
  _rev : Option Nat
  _deleted : Bool := false
  body : String := ""
deriving DecidableEq, Repr

/-- A JavaScript argument to put or post: a document object, or a
non-object primitive (validation rejects the latter).  Array arguments are
handled by the dedicated array branches of put and post. -/
inductive JsDoc where
  | obj (d : Doc)
  | prim (tag : String)
deriving DecidableEq, Repr

/-- A log entry payload. The final revision appends bare documents; the
older revisions append tagged envelopes of shape op plus doc. -/
inductive Payload where
  | bare (d : Doc)
  | tagged (op : String) (d : Doc)
deriving DecidableEq, Repr

/-- One stored revision inside the materialized PouchDB store. -/
structure PDoc where
  _id : String
  _rev : Nat
  _deleted : Bool
  body : String
deriving DecidableEq, Repr

/-- The materialized store: every stored revision, plus a counter used to
assign fresh identifiers on post. -/
structure Pouch where
  stored : List PDoc
  nextId : Nat := 0
deriving DecidableEq, Repr

/-- Whether a given id and revision pair is already stored. -/
def Pouch.hasRev (p : Pouch) (i : String) (r : Nat) : Prop :=
  ∃ x ∈ p.stored, x._id = i ∧ x._rev = r

instance (p : Pouch) (i : String) (r : Nat) : Decidable (p.hasRev i r) :=
  List.decidableBEx _ p.stored

/-- The stored revisions of one document. -/
def Pouch.revsOf (p : Pouch) (i : String) : List PDoc :=
  p.stored.filter (fun x => x._id = i)

/-- The winning revision of one document: the stored revision with the
greatest revision number (the PouchDB deterministic winner, with the
generation number standing in for the full generation-hash pair). -/
def Pouch.winner (p : Pouch) (i : String) : Option PDoc :=
  (p.revsOf i).foldl
    (fun acc x =>
      match acc with
      | none => some x
      | some w => if w._rev < x._rev then some x else some w)
    none

/-- The live (winning and not deleted) revision of one document. -/
def Pouch.live (p : Pouch) (i : String) : Option PDoc :=
  match p.winner i with
  | none => none
  | some w => if w._deleted then none else some w

/-- Identifiers present in the store, first occurrence order. -/
def Pouch.ids (p : Pouch) : List String :=
  (p.stored.map (fun x => x._id)).dedup

/-- The live document set of the store, as produced by allDocs. -/
def Pouch.liveDocs (p : Pouch) : List PDoc :=
  p.ids.filterMap p.live

/-- pouch.put: rejects a document without an id, enforces the optimistic
concurrency check against the winning revision, and stores a fresh
revision. Returns the assigned revision number. -/
def Pouch.putDoc (p : Pouch) (d : Doc) : Except CubeError (Pouch × Nat) :=
  match d._id with
  | none => .error .missingId
  | some i =>
    match p.winner i with
    | none =>
      match d._rev with
      | none => .ok (⟨p.stored ++ [⟨i, 1, d._deleted, d.body⟩], p.nextId⟩, 1)
      | some _ => .error .conflict
    | some w =>
      if d._rev = some w._rev then
        .ok (⟨p.stored ++ [⟨i, w._rev + 1, d._deleted, d.body⟩], p.nextId⟩, w._rev + 1)
      else if w._deleted ∧ d._rev = none then
        .ok (⟨p.stored ++ [⟨i, w._rev + 1, d._deleted, d.body⟩], p.nextId⟩, w._rev + 1)
      else .error .conflict

/-- pouch.post: assigns a fresh identifier when the document lacks one,
then writes like put. Returns the assigned identifier and revision. -/
def Pouch.postDoc (p : Pouch) (d : Doc) : Except CubeError (Pouch × String × Nat) :=
  match d._id with
  | some i =>
    match p.putDoc d with
    | .ok (p', rv) => .ok (p', i, rv)
    | .error e => .error e
  | none =>
    let i := "auto-" ++ toString p.nextId
    match Pouch.putDoc ⟨p.stored, p.nextId + 1⟩ ⟨some i, d._rev, d._deleted, d.body⟩ with
    | .ok (p', rv) => .ok (p', i, rv)
    | .error e => .error e

/-- pouch.remove: deletes by id and revision, failing when the document is
absent or the supplied revision is stale; stores a tombstone revision and
returns the revision the removal itself assigned. -/
def Pouch.remove (p : Pouch) (i : String) (r : Nat) : Except CubeError (Pouch × Nat) :=
  match p.winner i with
  | none => .error .notFound
  | some w =>
    if w._deleted then .error .notFound
    else if r = w._rev then
      .ok (⟨p.stored ++ [⟨i, r + 1, true, ""⟩], p.nextId⟩, r + 1)
    else .error .conflict

/-- pouch.bulkDocs with new_edits false on a single document: stores the
given id and revision exactly as given; a pair already present is a no-op,
a document without id or revision fails application. -/
def Pouch.bulkDocNoEdits (p : Pouch) (d : Doc) : Except CubeError Pouch :=
  match d._id, d._rev with
  | some i, some r =>
    if p.hasRev i r then .ok p
    else .ok ⟨p.stored ++ [⟨i, r, d._deleted, d.body⟩], p.nextId⟩
  | _, _ => .error .missingRev

/-- The document a payload offers for direct bulk application: an op-tagged
envelope has no top-level id or revision, so it is malformed for the
bare-document replay path. -/
def Payload.asDoc : Payload → Option Doc
  | .bare d => some d
  | .tagged _ _ => none

/-- Applying one log entry payload to the store via bulkDocs new_edits
false, as the join replay does. -/
def Pouch.bulkPayload (p : Pouch) (e : Payload) : Except CubeError Pouch :=
  match e.asDoc with
  | some d => p.bulkDocNoEdits d
  | none => .error .missingRev

/-- The id and revision key a payload carries, when well formed. -/
def Payload.keyOf (e : Payload) : Option (String × Nat) :=
  match e.asDoc with
  | some d =>
    match d._id, d._rev with
    | some i, some r => some (i, r)
    | _, _ => none
  | none => none

/-- log.append of the ipfs-log collaborator. -/
def Log.append (l : List Payload) (e : Payload) : List Payload :=
  l ++ [e]

/-- log.join of the ipfs-log collaborator: the causal union, deduplicated
by content identity, local entries first and unseen foreign entries after
in their order. -/
def Log.join (l f : List Payload) : List Payload :=
  l ++ f.filter (fun e => decide (e ∉ l))

/-- A content fingerprint of the log (log.toMultihash), modelled as an
opaque deterministic function of the entry sequence. -/
def logHash (l : List Payload) : String :=
  "Qm" ++ toString l.length

/-- The full state of one CubeSatDB instance: its materialized store, its
log, and the cached multihash field written by toMultihash. -/
structure Store where
  pouch : Pouch
  log : List Payload
  _hash : Option String := none
deriving DecidableEq, Repr

/-- The constructor argument: a plain name string, or an object carrying a
hash and a name (the pair form of the final revision). -/
inductive NameArg where
  | str (name : String)
  | pair (hash : Option String) (name : String)
deriving DecidableEq, Repr

/-- The final revision constructor: binds fresh log and store instances to
the name; when given a pair object it seeds the cached hash field from the
pair (an absent or empty hash is falsy in the source and behaves as
unset). -/
def CubeSatDB.mk (n : NameArg) : Store :=
  match n with
  | .str _ => ⟨⟨[], 0⟩, [], none⟩
  | .pair h _ =>
    match h with
    | some "" => ⟨⟨[], 0⟩, [], none⟩
    | _ => ⟨⟨[], 0⟩, [], h⟩

/-- An observable side effect on the two stateful collaborators, used to
settle ordering claims. -/
inductive Ev where
  | storeWrite (i : String) (r : Nat)
  | logAppend (e : Payload)
deriving DecidableEq, Repr

/-- validate of the source: a document must be an object (the array case
is intercepted by the array branches before validate runs). -/
def CubeSatDB.validate : JsDoc → Option CubeError
  | .obj _ => none
  | .prim _ => some (.invalidDocument "Document must be an object.")

/-- Result of a single-document mutation: the effects in order, the final
state, the caller-visible argument object after the call (the source
mutates it in place), and the propagated error if any. -/
structure OpResult where
  events : List Ev
  store : Store
  doc : JsDoc
  err : Option CubeError
deriving DecidableEq, Repr

/-- Single-document put of the final revision: validate, write to the
materialized store obtaining the new revision, set the rev field on the
caller object, then append that document to the log. -/
def CubeSatDB.put1 (j : JsDoc) (s : Store) : OpResult :=
  match CubeSatDB.validate j with
  | some e => ⟨[], s, j, some e⟩
  | none =>
    match j with
    | .prim t => ⟨[], s, .prim t, some (.invalidDocument "Document must be an object.")⟩
    | .obj d =>
      match s.pouch.putDoc d with
      | .error e => ⟨[], s, .obj d, some e⟩
      | .ok (p', rv) =>
        let d' : Doc := ⟨d._id, some rv, d._deleted, d.body⟩
        ⟨[.storeWrite (d._id.getD "") rv, .logAppend (.bare d')],
         ⟨p', Log.append s.log (.bare d'), s._hash⟩, .obj d', none⟩

/-- Single-document post of the final revision: validate, post to the
materialized store, overwrite the id and rev fields of the caller object
with the assigned values, then append that document to the log. -/
def CubeSatDB.post1 (j : JsDoc) (s : Store) : OpResult :=
  match CubeSatDB.validate j with
  | some e => ⟨[], s, j, some e⟩
  | none =>
    match j with
    | .prim t => ⟨[], s, .prim t, some (.invalidDocument "Document must be an object.")⟩
    | .obj d =>
      match s.pouch.postDoc d with
      | .error e => ⟨[], s, .obj d, some e⟩
      | .ok (p', i, rv) =>
        let d' : Doc := ⟨some i, some rv, d._deleted, d.body⟩
        ⟨[.storeWrite i rv, .logAppend (.bare d')],
         ⟨p', Log.append s.log (.bare d'), s._hash⟩, .obj d', none⟩

/-- The array branch of put in the final revision: put applied to every
element (the concurrent map is sequentialized), every element runs to
completion, and the per-element outcomes are gathered. -/
def CubeSatDB.putArr (ds : List JsDoc) (s : Store) : Store × List (Option CubeError) :=
  match ds with
  | [] => (s, [])
  | j :: rest =>
    ((CubeSatDB.putArr rest (CubeSatDB.put1 j s).store).1,
     (CubeSatDB.put1 j s).err :: (CubeSatDB.putArr rest (CubeSatDB.put1 j s).store).2)

/-- The first failure among gathered outcomes, as Promise.all surfaces it. -/
def firstSome : List (Option CubeError) → Option CubeError
  | [] => none
  | some e :: _ => some e
  | none :: rest => firstSome rest

/-- put on an array in the final revision: Promise.all over the element
puts, rejecting with the first element failure. -/
def CubeSatDB.putAll (ds : List JsDoc) (s : Store) : Store × Option CubeError :=
  let (s', os) := CubeSatDB.putArr ds s
  (s', firstSome os)

/-- del of the final revision: remove from the materialized store first
(propagating stale-revision failures), then append a tombstone carrying
the revision the removal assigned and the deleted marker. -/
def CubeSatDB.del1 (i : String) (r : Nat) (s : Store) : List Ev × Store × Option CubeError :=
  match s.pouch.remove i r with
  | .error e => ([], s, some e)
  | .ok (p', rv') =>
    let tomb : Doc := ⟨some i, some rv', true, ""⟩
    ([.storeWrite i rv', .logAppend (.bare tomb)],
     ⟨p', Log.append s.log (.bare tomb), s._hash⟩, none)

/-- Options object of all: the include_docs member may be absent. -/
structure AllOpts where
  include_docs : Option Bool
deriving DecidableEq, Repr

/-- A raw allDocs index row. -/
structure AllRow where
  rowId : String
  rowRev : Nat
deriving DecidableEq, Repr

/-- What all returns: hydrated documents or raw index rows. -/
inductive AllResult where
  | docs (ds : List PDoc)
  | rows (rs : List AllRow)
deriving DecidableEq, Repr

/-- The JavaScript expression a or-else b on an optional boolean: a falsy
left operand (absent or false) yields the right operand. -/
def jsOrBool (x : Option Bool) (b : Bool) : Bool :=
  match x with
  | some true => true
  | _ => b

/-- all of the source: sets include_docs to include_docs or-else true,
then returns hydrated documents when the resulting flag is true and raw
rows otherwise. -/
def CubeSatDB.all (o : AllOpts) (s : Store) : AllResult :=
  let inc := jsOrBool o.include_docs true
  if inc then .docs s.pouch.liveDocs
  else .rows (s.pouch.liveDocs.map (fun d => ⟨d._id, d._rev⟩))

/-- The replay loop of the final revision join: apply each entry through
bulkDocs new_edits false, catching and logging (swallowing) every
per-entry error. Returns the final store and the swallowed errors. -/
def replaySwallow (p : Pouch) : List Payload → Pouch × List CubeError
  | [] => (p, [])
  | e :: rest =>
    match p.bulkPayload e with
    | .ok p' => replaySwallow p' rest
    | .error er => ((replaySwallow p rest).1, er :: (replaySwallow p rest).2)

/-- Result of a final-revision join: the new state, the entries the replay
loop iterated, and the errors its per-entry catch swallowed. -/
structure JoinResult where
  store : Store
  replayed : List Payload
  swallowed : List CubeError
deriving DecidableEq, Repr

/-- join of the final revision: merge the foreign log into the local log,
then replay the values of the foreign argument (not the merged local log)
into the materialized store, swallowing per-entry errors. -/
def CubeSatDB.join (foreign : List Payload) (s : Store) : JoinResult :=
  ⟨⟨(replaySwallow s.pouch foreign).1, Log.join s.log foreign, s._hash⟩,
   foreign, (replaySwallow s.pouch foreign).2⟩

/-- The replay loop of the second index.js revision: iterate entries in
order, log and rethrow the first application error, aborting the rest.
Returns the state reached, the entries iterated, and the rethrown error. -/
def replayAbort (p : Pouch) : List Payload → Pouch × List Payload × Option CubeError
  | [] => (p, [], none)
  | e :: rest =>
    match p.bulkPayload e with
    | .error er => (p, [e], some er)
    | .ok p' =>
      ((replayAbort p' rest).1, e :: (replayAbort p' rest).2.1, (replayAbort p' rest).2.2)

/-- Result of a second index.js revision join. -/
structure JoinResult2 where
  store : Store
  replayed : List Payload
  err : Option CubeError
deriving DecidableEq, Repr

/-- join of the second index.js revision: merge the foreign log, then
replay the merged local log from its first entry, rethrowing the first
application error. -/
def CubeSatDB.join_v2 (foreign : List Payload) (s : Store) : JoinResult2 :=
  ⟨⟨(replayAbort s.pouch (Log.join s.log foreign)).1, Log.join s.log foreign, s._hash⟩,
   (replayAbort s.pouch (Log.join s.log foreign)).2.1,
   (replayAbort s.pouch (Log.join s.log foreign)).2.2⟩

/-- toMultihash of the final revision: compute the log fingerprint and
cache it on the instance. -/
def CubeSatDB.toMultihash (s : Store) : Store × String :=
  let h := logHash s.log
  (⟨s.pouch, s.log, some h⟩, h)

/-- The hash getter of the final revision: fails while the cached field is
unset. -/
def CubeSatDB.hash (s : Store) : Except CubeError String :=
  match s._hash with
  | none => .error .noHashYet
  | some h => .ok h

/-- Single-document put of the earliest revision (part_000): validate,
append the op-tagged envelope to the log FIRST, then write to the
materialized store; the caller object is not updated with the revision. -/
def CubeSatDB.put_v0 (j : JsDoc) (s : Store) : List Ev × Store × Option CubeError :=
  match CubeSatDB.validate j with
  | some e => ([], s, some e)
  | none =>
    match j with
    | .prim _ => ([], s, some (.invalidDocument "Document must be an object."))
    | .obj d =>
      let entry := Payload.tagged "ADD" d
      let s1 : Store := ⟨s.pouch, Log.append s.log entry, s._hash⟩
      match s1.pouch.putDoc d with
      | .error e => ([.logAppend entry], s1, some e)
      | .ok (p', rv) =>
        ([.logAppend entry, .storeWrite (d._id.getD "") rv],
         ⟨p', s1.log, s1._hash⟩, none)

/-- The array branch of put in the earliest revision: forEach over an
async callback, so the call resolves immediately while the per-element
operations run detached and their failures are dropped. The state reflects
the detached effects; the caller-visible outcome is always success. -/
def CubeSatDB.putMany_v0 (ds : List JsDoc) (s : Store) : Store × Option CubeError :=
  (ds.foldl (fun st j => (CubeSatDB.put_v0 j st).2.1) s, none)

/-- del of the earliest revision (part_000): append the op-tagged delete
envelope carrying the caller-supplied revision and no deleted marker to
the log FIRST, then remove from the materialized store. -/
def CubeSatDB.del_v0 (i : String) (r : Nat) (s : Store) : List Ev × Store × Option CubeError :=
  let entry := Payload.tagged "DEL" ⟨some i, some r, false, ""⟩
  let s1 : Store := ⟨s.pouch, Log.append s.log entry, s._hash⟩
  match s1.pouch.remove i r with
  | .error e => ([.logAppend entry], s1, some e)
  | .ok (p', rv') =>
    ([.logAppend entry, .storeWrite i rv'], ⟨p', s1.log, s1._hash⟩, none)

/-! ## Replay lemmas -/

/-- The effect of one swallowed replay step on the materialized store: the
new store on success, the unchanged store when the per-entry catch fires. -/
def applyStep (p : Pouch) (e : Payload) : Pouch :=
  match p.bulkPayload e with
  | .ok p' => p'
  | .error _ => p

lemma applyStep_cases (p : Pouch) (e : Payload) :
    (e.keyOf = none ∧ applyStep p e = p) ∨
    (∃ i r, e.keyOf = some (i, r) ∧ (applyStep p e).hasRev i r ∧
      (p.hasRev i r → applyStep p e = p) ∧
      ∀ i' r', p.hasRev i' r' → (applyStep p e).hasRev i' r') := by
  cases e with
  | tagged op d =>
    left
    exact ⟨rfl, rfl⟩
  | bare d =>
    cases hi : d._id with
    | none =>
      left
      constructor
      · simp [Payload.keyOf, Payload.asDoc, hi]
      · simp [applyStep, Pouch.bulkPayload, Payload.asDoc, Pouch.bulkDocNoEdits, hi]
    | some i =>
      cases hr : d._rev with
      | none =>
        left
        constructor
        · simp [Payload.keyOf, Payload.asDoc, hi, hr]
        · simp [applyStep, Pouch.bulkPayload, Payload.asDoc, Pouch.bulkDocNoEdits, hi, hr]
      | some r =>
        right
        refine ⟨i, r, by simp [Payload.keyOf, Payload.asDoc, hi, hr], ?_, ?_, ?_⟩
        · by_cases hc : p.hasRev i r
          · simp [applyStep, Pouch.bulkPayload, Payload.asDoc, Pouch.bulkDocNoEdits,
              hi, hr, hc]
          · simp only [applyStep, Pouch.bulkPayload, Payload.asDoc, Pouch.bulkDocNoEdits,
              hi, hr, if_neg hc]
            exact ⟨⟨i, r, d._deleted, d.body⟩,
              List.mem_append_right _ (List.mem_singleton.mpr rfl), rfl, rfl⟩
        · intro hc
          simp [applyStep, Pouch.bulkPayload, Payload.asDoc, Pouch.bulkDocNoEdits, hi, hr, hc]
        · intro i' r' hm
          by_cases hc : p.hasRev i r
          · simpa [applyStep, Pouch.bulkPayload, Payload.asDoc, Pouch.bulkDocNoEdits,
              hi, hr, hc] using hm
          · simp only [applyStep, Pouch.bulkPayload, Payload.asDoc, Pouch.bulkDocNoEdits,
              hi, hr, if_neg hc]
            obtain ⟨x, hx, hprop⟩ := hm
            exact ⟨x, List.mem_append_left _ hx, hprop⟩

lemma applyStep_mono {p : Pouch} {e : Payload} {i : String} {r : Nat}
    (h : p.hasRev i r) : (applyStep p e).hasRev i r := by
  rcases applyStep_cases p e with ⟨_, he⟩ | ⟨i', r', _, _, _, hmono⟩
  · rw [he]; exact h
  · exact hmono _ _ h

lemma applyStep_eq_of_malformed {p : Pouch} {e : Payload} (h : e.keyOf = none) :
    applyStep p e = p := by
  rcases applyStep_cases p e with ⟨_, he⟩ | ⟨i', r', hk, _, _, _⟩
  · exact he
  · rw [h] at hk; cases hk

lemma applyStep_eq_of_mem {p : Pouch} {e : Payload} {i : String} {r : Nat}
    (hk : e.keyOf = some (i, r)) (hm : p.hasRev i r) : applyStep p e = p := by
  rcases applyStep_cases p e with ⟨hn, he⟩ | ⟨i', r', hk', _, heq, _⟩
  · exact he
  · rw [hk] at hk'
    obtain ⟨rfl, rfl⟩ : i' = i ∧ r' = r := by
      have := hk'.symm
      simp only [Option.some.injEq, Prod.mk.injEq] at this
      exact this
    exact heq hm

lemma foldl_applyStep_mono {i : String} {r : Nat} :
    ∀ (L : List Payload) (p : Pouch), p.hasRev i r → (L.foldl applyStep p).hasRev i r
  | [], _, h => h
  | _ :: rest, _, h => foldl_applyStep_mono rest _ (applyStep_mono h)

lemma foldl_applyStep_covers {i : String} {r : Nat} {e : Payload}
    (hk : e.keyOf = some (i, r)) :
    ∀ (L : List Payload) (p : Pouch), e ∈ L → (L.foldl applyStep p).hasRev i r
  | a :: rest, p, hmem => by
    rcases List.mem_cons.mp hmem with rfl | hmem'
    · have h1 : (applyStep p e).hasRev i r := by
        rcases applyStep_cases p e with ⟨hn, _⟩ | ⟨i', r', hk', hcov, _, _⟩
        · rw [hk] at hn; cases hn
        · rw [hk] at hk'
          obtain ⟨rfl, rfl⟩ : i' = i ∧ r' = r := by
            have := hk'.symm
            simp only [Option.some.injEq, Prod.mk.injEq] at this
            exact this
          exact hcov
      simpa only [List.foldl_cons] using foldl_applyStep_mono rest _ h1
    · simpa only [List.foldl_cons] using foldl_applyStep_covers hk rest _ hmem'

lemma foldl_applyStep_stable :
    ∀ (L : List Payload) (p : Pouch),
      (∀ e ∈ L, e.keyOf = none ∨ ∃ i r, e.keyOf = some (i, r) ∧ p.hasRev i r) →
      L.foldl applyStep p = p
  | [], _, _ => rfl
  | e :: rest, p, h => by
    have he : applyStep p e = p := by
      rcases h e (List.mem_cons_self _ _) with hn | ⟨i, r, hk, hm⟩
      · exact applyStep_eq_of_malformed hn
      · exact applyStep_eq_of_mem hk hm
    rw [List.foldl_cons, he]
    exact foldl_applyStep_stable rest p (fun e' he' => h e' (List.mem_cons_of_mem _ he'))

lemma foldl_applyStep_idem (L : List Payload) (p : Pouch) :
    L.foldl applyStep (L.foldl applyStep p) = L.foldl applyStep p := by
  apply foldl_applyStep_stable
  intro e he
  cases hk : e.keyOf with
  | none => exact Or.inl rfl
  | some k =>
    obtain ⟨i, r⟩ := k
    right
    exact ⟨i, r, rfl, foldl_applyStep_covers hk L p he⟩

lemma replaySwallow_fst_eq : ∀ (L : List Payload) (p : Pouch),
    (replaySwallow p L).1 = L.foldl applyStep p
  | [], _ => rfl
  | e :: rest, p => by
    cases hb : p.bulkPayload e with
    | ok p' =>
      have ha : applyStep p e = p' := by simp [applyStep, hb]
      simp only [replaySwallow, hb, List.foldl_cons, ha]
      exact replaySwallow_fst_eq rest p'
    | error er =>
      have ha : applyStep p e = p := by simp [applyStep, hb]
      simp only [replaySwallow, hb, List.foldl_cons, ha]
      exact replaySwallow_fst_eq rest p

lemma Log.mem_join_right {e : Payload} {l f : List Payload} (h : e ∈ f) :
    e ∈ Log.join l f := by
  by_cases hl : e ∈ l
  · exact List.mem_append_left _ hl
  · refine List.mem_append_right _ ?_
    simp [List.mem_filter, h, hl]

lemma Log.join_idem (l f : List Payload) :
    Log.join (Log.join l f) f = Log.join l f := by
  have hnil : f.filter (fun e => decide (e ∉ Log.join l f)) = [] := by
    rw [List.filter_eq_nil_iff]
    intro a ha
    simp [Log.mem_join_right ha]
  show Log.join l f ++ f.filter (fun e => decide (e ∉ Log.join l f)) = Log.join l f
  rw [hnil, List.append_nil]

lemma join_store_idem (L : List Payload) (s : Store) :
    (CubeSatDB.join L (CubeSatDB.join L s).store).store = (CubeSatDB.join L s).store := by
  show (⟨_, _, _⟩ : Store) = (⟨_, _, _⟩ : Store)
  have hp : (replaySwallow (replaySwallow s.pouch L).1 L).1 = (replaySwallow s.pouch L).1 := by
    rw [replaySwallow_fst_eq, replaySwallow_fst_eq]
    exact foldl_applyStep_idem L s.pouch
  have hl : Log.join (Log.join s.log L) L = Log.join s.log L := Log.join_idem s.log L
  simp only [CubeSatDB.join] at hp hl ⊢
  rw [hp, hl]

lemma bulkPayload_malformed {e : Payload} (h : e.keyOf = none) (p : Pouch) :
    p.bulkPayload e = .error CubeError.missingRev := by
  cases e with
  | tagged op d => rfl
  | bare d =>
    cases hi : d._id with
    | none => simp [Pouch.bulkPayload, Payload.asDoc, Pouch.bulkDocNoEdits, hi]
    | some i =>
      cases hr : d._rev with
      | none => simp [Pouch.bulkPayload, Payload.asDoc, Pouch.bulkDocNoEdits, hi, hr]
      | some r => simp [Payload.keyOf, Payload.asDoc, hi, hr] at h

lemma replaySwallow_snd_mem {e : Payload} (h : e.keyOf = none) :
    ∀ (L1 L2 : List Payload) (p : Pouch),
      CubeError.missingRev ∈ (replaySwallow p (L1 ++ e :: L2)).2
  | [], L2, p => by
    simp [replaySwallow, bulkPayload_malformed h p]
  | a :: rest, L2, p => by
    cases hb : p.bulkPayload a with
    | ok p' =>
      simpa only [List.cons_append, replaySwallow, hb] using
        replaySwallow_snd_mem h rest L2 p'
    | error er =>
      simp only [List.cons_append, replaySwallow, hb]
      exact List.mem_cons_of_mem _ (replaySwallow_snd_mem h rest L2 p)

lemma replayAbort_all_ok : ∀ (L : List Payload) (p : Pouch),
    (replayAbort p L).2.2 = none → (replayAbort p L).2.1 = L
  | [], _, _ => rfl
  | e :: rest, p, h => by
    cases hb : p.bulkPayload e with
    | error er => simp [replayAbort, hb] at h
    | ok p' =>
      simp only [replayAbort, hb] at h ⊢
      rw [replayAbort_all_ok rest p' h]

/-! ## Claim C1 -/

def C1eX : Payload := .bare ⟨some "x", some 1, false, "bx"⟩

def C1eY : Payload := .bare ⟨some "y", some 1, false, "byy"⟩

def C1sX : Store := ⟨⟨[], 0⟩, [C1eX], none⟩

/-- C1 counterexample: in the final revision (part_001), a store whose own
log holds the entry C1eX, joined with a foreign log holding only C1eY,
replays only the foreign entry: the replay loop iterated [C1eY], not the
merged local log [C1eX, C1eY], and the merged-log entry C1eX was never
applied to the materialized store. -/
theorem C1_counterexample :
    (CubeSatDB.join [C1eY] C1sX).replayed = [C1eY] ∧
    Log.join C1sX.log [C1eY] = [C1eX, C1eY] ∧
    ([C1eY] : List Payload) ≠ [C1eX, C1eY] ∧
    ¬ (CubeSatDB.join [C1eY] C1sX).store.pouch.hasRev "x" 1 := by
  refine ⟨by decide, by decide, by decide, by decide⟩

/-- C1 amended: in the final revision (part_001) the replay step of join
iterates exactly the foreign argument log, in its order from the first
entry — local entries absent from the foreign log are never replayed —
while in the second index.js revision the replay iterates this store's own
merged log from the beginning (shown here for the error-free case). -/
theorem C1_join_replays_foreign_log (f : List Payload) (s : Store) :
    (CubeSatDB.join f s).replayed = f ∧
    (∀ e ∈ s.log, e ∉ f → e ∉ (CubeSatDB.join f s).replayed) ∧
    ((CubeSatDB.join_v2 f s).err = none →
      (CubeSatDB.join_v2 f s).replayed = Log.join s.log f) := by
  refine ⟨rfl, ?_, ?_⟩
  · intro e _ hef
    exact hef
  · intro h
    exact replayAbort_all_ok _ _ h

/-- C1 witness: the amended theorem applied at a concrete join whose
replay raises no error. -/
theorem C1_join_replays_foreign_log_witness :
    (CubeSatDB.join_v2 [C1eY] C1sX).replayed = Log.join C1sX.log [C1eY] :=
  (C1_join_replays_foreign_log [C1eY] C1sX).2.2 (by decide)

/-! ## Claim C2 -/

/-- C2: replay is idempotent — joining the same log a second time leaves
the live document set of the materialized store unchanged. -/
theorem C2_replay_idempotent (L : List Payload) (s : Store) :
    ((CubeSatDB.join L ((CubeSatDB.join L s).store)).store.pouch).liveDocs
      = ((CubeSatDB.join L s).store.pouch).liveDocs := by
  rw [join_store_idem]

/-! ## Claim C4 -/

def C4badE : Payload := .bare ⟨some "z", none, false, "q"⟩

def C4goodE : Payload := .bare ⟨some "w", some 1, false, "ww"⟩

def C4s0 : Store := ⟨⟨[], 0⟩, [], none⟩

/-- C4 counterexample: a genuinely new entry whose application fails (a
payload with no revision) does NOT propagate out of join in the final
revision: join has no failure channel at all, the error is merely caught
and logged (collected in swallowed), the log is merged and the
materialized store is left unchanged — contradicting the claim that such
an error propagates to the caller and aborts the replay. -/
theorem C4_counterexample :
    (CubeSatDB.join [C4badE] C4s0).swallowed = [CubeError.missingRev] ∧
    (CubeSatDB.join [C4badE] C4s0).store.log = [C4badE] ∧
    (CubeSatDB.join [C4badE] C4s0).store.pouch = C4s0.pouch := by
  refine ⟨by decide, by decide, by decide⟩

/-- C4 amended: in the final revision every replay application error —
whether the entry was already applied or is genuinely new and malformed —
is caught and logged without aborting the join: the failing entry is
skipped (the remaining entries are applied exactly as if it were absent),
its error is recorded among the swallowed errors, and the log is still
fully merged. -/
theorem C4_join_swallows_application_errors (e : Payload) (h : e.keyOf = none)
    (L1 L2 : List Payload) (s : Store) :
    (CubeSatDB.join (L1 ++ e :: L2) s).store.pouch
        = (CubeSatDB.join (L1 ++ L2) s).store.pouch ∧
    CubeError.missingRev ∈ (CubeSatDB.join (L1 ++ e :: L2) s).swallowed ∧
    (CubeSatDB.join (L1 ++ e :: L2) s).store.log = Log.join s.log (L1 ++ e :: L2) := by
  refine ⟨?_, replaySwallow_snd_mem h L1 L2 s.pouch, rfl⟩
  show (replaySwallow s.pouch (L1 ++ e :: L2)).1 = (replaySwallow s.pouch (L1 ++ L2)).1
  rw [replaySwallow_fst_eq, replaySwallow_fst_eq, List.foldl_append, List.foldl_append,
    List.foldl_cons, applyStep_eq_of_malformed h]

/-- C4 witness: the amended theorem applied at a concrete malformed entry
followed by a well-formed one. -/
theorem C4_join_swallows_application_errors_witness :
    (CubeSatDB.join ([] ++ C4badE :: [C4goodE]) C4s0).store.pouch
        = (CubeSatDB.join ([] ++ [C4goodE]) C4s0).store.pouch ∧
    CubeError.missingRev ∈ (CubeSatDB.join ([] ++ C4badE :: [C4goodE]) C4s0).swallowed ∧
    (CubeSatDB.join ([] ++ C4badE :: [C4goodE]) C4s0).store.log
        = Log.join C4s0.log ([] ++ C4badE :: [C4goodE]) :=
  C4_join_swallows_application_errors C4badE (by decide) [] [C4goodE] C4s0

/-! ## Claim C3 -/

def C3d0 : Doc := ⟨some "a", none, false, "xx"⟩

def C3s0 : Store := ⟨⟨[], 0⟩, [], none⟩

/-- C3 counterexample: in the earliest revision (part_000), a successful
single-document put appends the op-tagged entry to the log strictly
before the materialized store write — the ordering the claim says never
occurs. -/
theorem C3_counterexample :
    (CubeSatDB.put_v0 (.obj C3d0) C3s0).1
      = [Ev.logAppend (Payload.tagged "ADD" C3d0), Ev.storeWrite "a" 1] ∧
    (CubeSatDB.put_v0 (.obj C3d0) C3s0).2.2 = none := by
  refine ⟨by decide, by decide⟩

/-- C3 amended: in the final revision (part_001), every successful
single-document put writes to the materialized store first, obtaining the
new revision, and only then appends the resulting document (carrying that
revision) to the log; the earliest revision (part_000) instead appends to
the log before the store write. -/
theorem C3_put_store_write_precedes_append (j : JsDoc) (s : Store)
    (h : (CubeSatDB.put1 j s).err = none) :
    ∃ i r d', (CubeSatDB.put1 j s).events
        = [Ev.storeWrite i r, Ev.logAppend (.bare d')] ∧
      d'._rev = some r ∧
      (CubeSatDB.put1 j s).store.log = s.log ++ [.bare d'] := by
  cases j with
  | prim t => simp [CubeSatDB.put1, CubeSatDB.validate] at h
  | obj d =>
    cases hb : s.pouch.putDoc d with
    | error e => simp [CubeSatDB.put1, CubeSatDB.validate, hb] at h
    | ok pr =>
      obtain ⟨p', rv⟩ := pr
      refine ⟨d._id.getD "", rv, ⟨d._id, some rv, d._deleted, d.body⟩, ?_, rfl, ?_⟩
      · simp [CubeSatDB.put1, CubeSatDB.validate, hb]
      · simp [CubeSatDB.put1, CubeSatDB.validate, hb, Log.append]

/-- C3 witness: the amended theorem applied to a concrete successful put. -/
theorem C3_put_store_write_precedes_append_witness :
    ∃ i r d', (CubeSatDB.put1 (.obj C3d0) C3s0).events
        = [Ev.storeWrite i r, Ev.logAppend (.bare d')] ∧
      d'._rev = some r ∧
      (CubeSatDB.put1 (.obj C3d0) C3s0).store.log = C3s0.log ++ [.bare d'] :=
  C3_put_store_write_precedes_append (.obj C3d0) C3s0 (by decide)

/-! ## Claim C5 -/

lemma Pouch.remove_rev {p p' : Pouch} {i : String} {r rv : Nat}
    (h : p.remove i r = .ok (p', rv)) : rv = r + 1 := by
  unfold Pouch.remove at h
  split at h
  · simp at h
  · split at h
    · simp at h
    · split at h
      · simp only [Except.ok.injEq, Prod.mk.injEq] at h
        exact h.2.symm
      · simp at h

def C5sA : Store := ⟨⟨[⟨"a", 1, false, "xx"⟩], 0⟩, [], none⟩

/-- C5 counterexample: in the earliest revision (part_000), a successful
delete appends its log entry strictly before removing from the
materialized store, and the appended entry carries the caller-supplied
revision 1 (not the revision 2 assigned by the remove) and no deleted
marker — contradicting remove-first with the result's revision and a
deleted marker. -/
theorem C5_counterexample :
    (CubeSatDB.del_v0 "a" 1 C5sA).1
      = [Ev.logAppend (Payload.tagged "DEL" ⟨some "a", some 1, false, ""⟩),
         Ev.storeWrite "a" 2] ∧
    (CubeSatDB.del_v0 "a" 1 C5sA).2.2 = none := by
  refine ⟨by decide, by decide⟩

/-- C5 amended: in the final revision (part_001), every successful delete
removes from the materialized store first and then appends a tombstone
carrying the revision the remove itself assigned — which differs from the
revision the caller supplied — together with the deleted marker; the
earliest revision (part_000) instead logs the caller revision first
without a deleted marker. -/
theorem C5_del_removes_then_appends_result_tombstone (i : String) (r : Nat) (s : Store)
    (h : (CubeSatDB.del1 i r s).2.2 = none) :
    ∃ r', r' ≠ r ∧
      (CubeSatDB.del1 i r s).1
        = [Ev.storeWrite i r', Ev.logAppend (.bare ⟨some i, some r', true, ""⟩)] ∧
      (CubeSatDB.del1 i r s).2.1.log = s.log ++ [.bare ⟨some i, some r', true, ""⟩] := by
  cases hb : s.pouch.remove i r with
  | error e => simp [CubeSatDB.del1, hb] at h
  | ok pr =>
    obtain ⟨p', rv'⟩ := pr
    have hr : rv' = r + 1 := Pouch.remove_rev hb
    refine ⟨rv', by omega, ?_, ?_⟩
    · simp [CubeSatDB.del1, hb]
    · simp [CubeSatDB.del1, hb, Log.append]

/-- C5 witness: the amended theorem applied to a concrete successful
delete. -/
theorem C5_del_removes_then_appends_result_tombstone_witness :
    ∃ r', r' ≠ 1 ∧
      (CubeSatDB.del1 "a" 1 C5sA).1
        = [Ev.storeWrite "a" r', Ev.logAppend (.bare ⟨some "a", some r', true, ""⟩)] ∧
      (CubeSatDB.del1 "a" 1 C5sA).2.1.log = C5sA.log ++ [.bare ⟨some "a", some r', true, ""⟩] :=
  C5_del_removes_then_appends_result_tombstone "a" 1 C5sA (by decide)

/-! ## Claim C6 -/

def C6dNoId : Doc := ⟨none, none, false, "n"⟩

def C6s0 : Store := ⟨⟨[], 0⟩, [], none⟩

/-- C6: in the final revision, put of a single document lacking an id
fails with the missing-identifier error and produces no side effect on the
materialized store or the log. -/
theorem C6_put_without_id_fails_before_effects (d : Doc) (s : Store)
    (h : d._id = none) :
    (CubeSatDB.put1 (.obj d) s).err = some CubeError.missingId ∧
    (CubeSatDB.put1 (.obj d) s).events = [] ∧
    (CubeSatDB.put1 (.obj d) s).store = s := by
  have hb : s.pouch.putDoc d = .error CubeError.missingId := by
    unfold Pouch.putDoc
    rw [h]
  refine ⟨?_, ?_, ?_⟩ <;> simp [CubeSatDB.put1, CubeSatDB.validate, hb]

/-- C6 witness: the theorem applied to a concrete id-less document. -/
theorem C6_put_without_id_fails_before_effects_witness :
    (CubeSatDB.put1 (.obj C6dNoId) C6s0).err = some CubeError.missingId ∧
    (CubeSatDB.put1 (.obj C6dNoId) C6s0).events = [] ∧
    (CubeSatDB.put1 (.obj C6dNoId) C6s0).store = C6s0 :=
  C6_put_without_id_fails_before_effects C6dNoId C6s0 (by decide)

/-! ## Claim C7 -/

lemma firstSome_eq_none_iff (os : List (Option CubeError)) :
    firstSome os = none ↔ ∀ o ∈ os, o = none := by
  induction os with
  | nil => simp [firstSome]
  | cons o rest ih =>
    cases o with
    | some e => simp [firstSome]
    | none => simpa [firstSome] using ih

lemma putArr_length : ∀ (ds : List JsDoc) (s : Store),
    (CubeSatDB.putArr ds s).2.length = ds.length
  | [], _ => rfl
  | j :: rest, s => by
    simp only [CubeSatDB.putArr, List.length_cons]
    rw [putArr_length rest _]

def C7s0 : Store := ⟨⟨[], 0⟩, [], none⟩

/-- C7 counterexample: in the earliest revision (part_000), put of an
array whose only element is invalid reports success — the element failure
is silently swallowed by the fire-and-forget forEach, contradicting the
claim that a failure on one element fails the whole operation. -/
theorem C7_counterexample :
    (CubeSatDB.putMany_v0 [JsDoc.prim "42"] C7s0).2 = none ∧
    (CubeSatDB.put_v0 (JsDoc.prim "42") C7s0).2.2
      = some (CubeError.invalidDocument "Document must be an object.") := by
  refine ⟨rfl, by decide⟩

/-- C7 amended: in the final revision (part_001), put on an array runs
put on every element (one outcome per element is produced) and the
overall call succeeds exactly when every element succeeded, failing
otherwise with the first element failure; in the earliest revision the
per-element failures are dropped and the call always reports success. -/
theorem C7_array_put_fails_iff_some_element_fails (ds : List JsDoc) (s : Store) :
    ((CubeSatDB.putAll ds s).2 = none ↔
      ∀ o ∈ (CubeSatDB.putArr ds s).2, o = none) ∧
    (CubeSatDB.putArr ds s).2.length = ds.length :=
  ⟨firstSome_eq_none_iff _, putArr_length ds s⟩

/-! ## Claim C8 -/

/-- C8: the source coerces options.include_docs with a JavaScript
or-else-true, so the flag is true even when the caller passed false: all
returns hydrated documents for EVERY options value, and the raw-rows
branch is unreachable. In particular all with include_docs explicitly
false still returns hydrated documents, not raw index rows. -/
theorem C8_all_ignores_include_docs_false (s : Store) (o : AllOpts) :
    CubeSatDB.all o s = AllResult.docs s.pouch.liveDocs := by
  obtain ⟨x⟩ := o
  cases x with
  | none => rfl
  | some b => cases b with | true => rfl | false => rfl

/-! ## Claim C9 -/

/-- C9 counterexample: an instance constructed from a hash-and-name pair
has the getter succeed immediately, although toMultihash was never called
on it — contradicting the claim that the getter fails until toMultihash
has been called at least once. -/
theorem C9_counterexample :
    CubeSatDB.hash (CubeSatDB.mk (NameArg.pair (some "QmSeed") "db"))
      = Except.ok "QmSeed" := by
  rfl

lemma put1_hash (j : JsDoc) (s : Store) :
    (CubeSatDB.put1 j s).store._hash = s._hash := by
  cases j with
  | prim t => rfl
  | obj d =>
    cases hb : s.pouch.putDoc d with
    | error e => simp [CubeSatDB.put1, CubeSatDB.validate, hb]
    | ok pr =>
      obtain ⟨p', rv⟩ := pr
      simp [CubeSatDB.put1, CubeSatDB.validate, hb]

lemma post1_hash (j : JsDoc) (s : Store) :
    (CubeSatDB.post1 j s).store._hash = s._hash := by
  cases j with
  | prim t => rfl
  | obj d =>
    cases hb : s.pouch.postDoc d with
    | error e => simp [CubeSatDB.post1, CubeSatDB.validate, hb]
    | ok pr =>
      obtain ⟨p', i, rv⟩ := pr
      simp [CubeSatDB.post1, CubeSatDB.validate, hb]

lemma del1_hash (i : String) (r : Nat) (s : Store) :
    (CubeSatDB.del1 i r s).2.1._hash = s._hash := by
  cases hb : s.pouch.remove i r with
  | error e => simp [CubeSatDB.del1, hb]
  | ok pr =>
    obtain ⟨p', rv⟩ := pr
    simp [CubeSatDB.del1, hb]

lemma hash_congr {s t : Store} (h : s._hash = t._hash) :
    CubeSatDB.hash s = CubeSatDB.hash t := by
  unfold CubeSatDB.hash
  rw [h]

/-- C9 amended: the getter fails with the no-fingerprint-yet error until
either toMultihash has been called or the instance was constructed from a
hash-and-name pair (which seeds the cache); once set, the cached value is
process-lifetime — no put, post, delete or join invalidates it, so the
getter keeps returning the previously cached value after later
mutations. -/
theorem C9_hash_cached_and_never_invalidated :
    (∀ n, CubeSatDB.hash (CubeSatDB.mk (.str n)) = .error CubeError.noHashYet) ∧
    (∀ s, CubeSatDB.hash (CubeSatDB.toMultihash s).1 = .ok (CubeSatDB.toMultihash s).2) ∧
    (∀ j s, CubeSatDB.hash (CubeSatDB.put1 j s).store = CubeSatDB.hash s) ∧
    (∀ j s, CubeSatDB.hash (CubeSatDB.post1 j s).store = CubeSatDB.hash s) ∧
    (∀ i r s, CubeSatDB.hash (CubeSatDB.del1 i r s).2.1 = CubeSatDB.hash s) ∧
    (∀ L s, CubeSatDB.hash (CubeSatDB.join L s).store = CubeSatDB.hash s) := by
  refine ⟨fun n => rfl, fun s => rfl, ?_, ?_, ?_, fun L s => rfl⟩
  · exact fun j s => hash_congr (put1_hash j s)
  · exact fun j s => hash_congr (post1_hash j s)
  · exact fun i r s => hash_congr (del1_hash i r s)

/-! ## Claim C10 -/

def C10dA : Doc := ⟨some "a", none, false, "pp"⟩

def C10dB : Doc := ⟨none, none, false, "qq"⟩

def C10s0 : Store := ⟨⟨[], 0⟩, [], none⟩

/-- C10: put and post mutate the caller's document in place — a
successful put overwrites the rev field with the newly assigned revision,
a successful post overwrites both the id and rev fields with the
store-assigned values, and in both cases the document appended to the log
is exactly that updated caller object. -/
theorem C10_put_post_update_caller_doc (d : Doc) (s : Store) :
    ((CubeSatDB.put1 (.obj d) s).err = none →
      ∃ r, (CubeSatDB.put1 (.obj d) s).doc = .obj ⟨d._id, some r, d._deleted, d.body⟩ ∧
        (CubeSatDB.put1 (.obj d) s).store.log
          = s.log ++ [.bare ⟨d._id, some r, d._deleted, d.body⟩]) ∧
    ((CubeSatDB.post1 (.obj d) s).err = none →
      ∃ i r, (CubeSatDB.post1 (.obj d) s).doc = .obj ⟨some i, some r, d._deleted, d.body⟩ ∧
        (CubeSatDB.post1 (.obj d) s).store.log
          = s.log ++ [.bare ⟨some i, some r, d._deleted, d.body⟩]) := by
  constructor
  · intro h
    cases hb : s.pouch.putDoc d with
    | error e => simp [CubeSatDB.put1, CubeSatDB.validate, hb] at h
    | ok pr =>
      obtain ⟨p', rv⟩ := pr
      exact ⟨rv, by simp [CubeSatDB.put1, CubeSatDB.validate, hb],
        by simp [CubeSatDB.put1, CubeSatDB.validate, hb, Log.append]⟩
  · intro h
    cases hb : s.pouch.postDoc d with
    | error e => simp [CubeSatDB.post1, CubeSatDB.validate, hb] at h
    | ok pr =>
      obtain ⟨p', i, rv⟩ := pr
      exact ⟨i, rv, by simp [CubeSatDB.post1, CubeSatDB.validate, hb],
        by simp [CubeSatDB.post1, CubeSatDB.validate, hb, Log.append]⟩

/-- C10 witness: the theorem applied to a concrete successful put (of a
document with an id) and a concrete successful post (of an id-less
document). -/
theorem C10_put_post_update_caller_doc_witness :
    (∃ r, (CubeSatDB.put1 (.obj C10dA) C10s0).doc
        = .obj ⟨C10dA._id, some r, C10dA._deleted, C10dA.body⟩ ∧
      (CubeSatDB.put1 (.obj C10dA) C10s0).store.log
        = C10s0.log ++ [.bare ⟨C10dA._id, some r, C10dA._deleted, C10dA.body⟩]) ∧
    (∃ i r, (CubeSatDB.post1 (.obj C10dB) C10s0).doc
        = .obj ⟨some i, some r, C10dB._deleted, C10dB.body⟩ ∧
      (CubeSatDB.post1 (.obj C10dB) C10s0).store.log
        = C10s0.log ++ [.bare ⟨some i, some r, C10dB._deleted, C10dB.body⟩]) :=
  ⟨(C10_put_post_update_caller_doc C10dA C10s0).1 (by decide),
   (C10_put_post_update_caller_doc C10dB C10s0).2 (by decide)⟩
